import Mathlib

/-!
Shallow embedding of the `tree_lexer` crate (files `src/cursor.rs` and
`src/lib.rs` of the `tree` repository): the peekable character cursor and
the literal-recognition routines, together with theorems settling the
specification claims about them.

Conventions of the embedding:
* Rust strings become `List Char`; the cursor's remaining input is the
  list of not-yet-consumed characters.
* `Cursor::new` stores `input.len()`, which in Rust is the UTF-8 *byte*
  length; the embedding keeps that byte count (`strBytes`) faithfully.
* Each `panic!` site of the source is embedded as an `Except.error` value
  of `LexError`; the constructor names follow the failure kinds of the
  specification (spec section 7), and each constructor documents the
  panic site it stands for.
* Loops are embedded as structural recursion on the remaining character
  list; every loop of the source consumes at least one character per
  iteration, so the embedding is total by construction.
-/

namespace TreeLexer

/-- The end-of-input sentinel character of `cursor.rs`:
`pub(crate) const EOF: char = '\0'`. -/
def EOF : Char := '\x00'

/-- Radix of a number literal (`enum Base` in `lib.rs`). -/
inductive Base where
  | Hexadecimal
  | Decimal
  | Binary
deriving DecidableEq

/-- Line/column of a token's first character (`struct Location` in `lib.rs`). -/
structure Location where
  line : Nat
  column : Nat
deriving DecidableEq

/-- Failure kinds. Each constructor embeds exactly one `panic!` site of the
source, named after the corresponding failure kind of the specification. -/
inductive LexError where
  /-- Embeds `panic!("Unexpected character after 0")` in `eat_number`. -/
  | InvalidNumberBase
  /-- Embeds `panic!("bad identifier start")` in `eat_ident`. -/
  | InvalidIdentifierStart
  /-- Embeds `panic!("unterminated string")` in `eat_double_quoted_string`. -/
  | UnterminatedString
  /-- Embeds `panic!("unexpected escape sequence")` in
  `eat_double_quoted_string`. -/
  | InvalidEscapeSequence
deriving DecidableEq

/-- UTF-8 byte length of one character (Rust `char::len_utf8`). -/
def charBytes (c : Char) : Nat :=
  if c.toNat < 0x80 then 1
  else if c.toNat < 0x800 then 2
  else if c.toNat < 0x10000 then 3
  else 4

/-- UTF-8 byte length of a character list (Rust `str::len`, a byte count). -/
def strBytes (l : List Char) : Nat :=
  (l.map charBytes).sum

/-- The peekable character cursor (`struct Cursor` in `cursor.rs`):
the remaining (not yet consumed) characters, the byte length recorded at
construction or at the last `reset_consumed` (`initial_len`; a byte count,
because Rust `str::len` counts bytes), and the current line and column. -/
structure Cursor where
  chars : List Char
  initialLen : Nat
  line : Nat
  column : Nat
deriving DecidableEq

/-- `Cursor::new`: `initial_len` is `input.len()`, the UTF-8 byte length. -/
def Cursor.new (input : String) : Cursor :=
  ⟨input.data, strBytes input.data, 0, 0⟩

/-- `Cursor::consumed`: `self.initial_len - self.chars.as_str().len()`,
a difference of byte lengths. -/
def Cursor.consumed (st : Cursor) : Nat :=
  st.initialLen - strBytes st.chars

/-- `Cursor::reset_consumed`. -/
def Cursor.reset_consumed (st : Cursor) : Cursor :=
  { st with initialLen := strBytes st.chars }

/-- `Cursor::location`. -/
def Cursor.location (st : Cursor) : Location :=
  ⟨st.line, st.column⟩

/-- `Cursor::is_eof`. -/
def Cursor.is_eof (st : Cursor) : Bool :=
  st.chars.isEmpty

/-- `Cursor::peek_first`: the next character, or the `EOF` sentinel. -/
def Cursor.peek_first (st : Cursor) : Char :=
  st.chars.headD EOF

/-- `Cursor::peek_second`: the character after the next one, or `EOF`. -/
def Cursor.peek_second (st : Cursor) : Char :=
  (st.chars.drop 1).headD EOF

/-- The line/column update performed by one `advance`: consuming a newline
resets the column to 0 and increments the line (`reset_column` followed by
`increment_line`); consuming any other character increments the column
(`increment_column`). -/
def advLC (c : Char) (lc : Nat × Nat) : Nat × Nat :=
  if c = '\n' then (lc.1 + 1, 0) else (lc.1, lc.2 + 1)

/-- `Cursor::advance`: consume and return the next character (updating the
line/column bookkeeping), or return `none` when the input is exhausted. -/
def Cursor.advance (st : Cursor) : Option Char × Cursor :=
  match st.chars with
  | [] => (none, st)
  | c :: rest =>
    let lc := advLC c (st.line, st.column)
    (some c, { st with chars := rest, line := lc.1, column := lc.2 })

/-- Loop body of `Cursor::eat_while`: while `predicate(peek_first)` holds
and input remains, advance and collect the consumed character. Returns the
collected characters, the remaining characters, and the updated
line/column pair. -/
def eatWhileAux (p : Char → Bool) : List Char → Nat × Nat →
    List Char × List Char × (Nat × Nat)
  | [], lc => ([], [], lc)
  | c :: rest, lc =>
    if p c then
      let r := eatWhileAux p rest (advLC c lc)
      (c :: r.1, r.2)
    else
      ([], c :: rest, lc)

/-- `Cursor::eat_while`. -/
def Cursor.eat_while (st : Cursor) (p : Char → Bool) : String × Cursor :=
  let r := eatWhileAux p st.chars (st.line, st.column)
  (⟨r.1⟩, { st with chars := r.2.1, line := r.2.2.1, column := r.2.2.2 })

/-- First character of a decimal digit range pattern `'0'..='9'`. -/
def isDecDigit (c : Char) : Bool :=
  '0' ≤ c && c ≤ '9'

/-- Range pattern `'0'..='9' | 'a'..='f' | 'A'..='F'`. -/
def isHexDigit (c : Char) : Bool :=
  ('0' ≤ c && c ≤ '9') || ('a' ≤ c && c ≤ 'f') || ('A' ≤ c && c ≤ 'F')

/-- Range pattern `'0'..='1'`. -/
def isBinDigit (c : Char) : Bool :=
  '0' ≤ c && c ≤ '1'

/-- Common loop body of `eat_decimal_digits`, `eat_hexadecimal_digits` and
`eat_binary_digits` (the three loops of the source are identical except
for the digit range): on `'_'` advance without collecting; on a digit of
the range collect and advance; otherwise break. Returns the collected
digits, the remaining characters, and the updated line/column pair. -/
def eatDigitsAux (isDigit : Char → Bool) : List Char → Nat × Nat →
    List Char × List Char × (Nat × Nat)
  | [], lc => ([], [], lc)
  | c :: rest, lc =>
    if c = '_' then
      eatDigitsAux isDigit rest (advLC c lc)
    else if isDigit c then
      let r := eatDigitsAux isDigit rest (advLC c lc)
      (c :: r.1, r.2)
    else
      ([], c :: rest, lc)

/-- `Cursor::eat_decimal_digits`. -/
def Cursor.eat_decimal_digits (st : Cursor) : String × Cursor :=
  let r := eatDigitsAux isDecDigit st.chars (st.line, st.column)
  (⟨r.1⟩, { st with chars := r.2.1, line := r.2.2.1, column := r.2.2.2 })

/-- `Cursor::eat_hexadecimal_digits`. -/
def Cursor.eat_hexadecimal_digits (st : Cursor) : String × Cursor :=
  let r := eatDigitsAux isHexDigit st.chars (st.line, st.column)
  (⟨r.1⟩, { st with chars := r.2.1, line := r.2.2.1, column := r.2.2.2 })

/-- `Cursor::eat_binary_digits`. -/
def Cursor.eat_binary_digits (st : Cursor) : String × Cursor :=
  let r := eatDigitsAux isBinDigit st.chars (st.line, st.column)
  (⟨r.1⟩, { st with chars := r.2.1, line := r.2.2.1, column := r.2.2.2 })

/-- `Cursor::eat_number`. The `panic!("Unexpected character after 0")`
branch is embedded as `LexError.InvalidNumberBase`. -/
def Cursor.eat_number (st : Cursor) : Except LexError ((String × Base) × Cursor) :=
  if st.peek_first = '0' then
    if st.peek_second = 'x' ∨ st.peek_second = 'X' then
      let st1 := (st.advance).2
      let st2 := (st1.advance).2
      let r := st2.eat_hexadecimal_digits
      .ok ((r.1, Base.Hexadecimal), r.2)
    else if st.peek_second = 'b' ∨ st.peek_second = 'B' then
      let st1 := (st.advance).2
      let st2 := (st1.advance).2
      let r := st2.eat_binary_digits
      .ok ((r.1, Base.Binary), r.2)
    else if isDecDigit st.peek_second = true ∨ st.peek_second = '_' then
      let r := st.eat_decimal_digits
      .ok ((r.1, Base.Decimal), r.2)
    else
      .error LexError.InvalidNumberBase
  else
    let r := st.eat_decimal_digits
    .ok ((r.1, Base.Decimal), r.2)

/-- `Cursor::eat_comment`: gobble characters up to (not including) the
next newline. -/
def Cursor.eat_comment (st : Cursor) : Cursor :=
  (st.eat_while (fun c => c != '\n')).2

/-- Loop body of `Cursor::eat_multiline_comment`: repeatedly advance; on
`'*'` followed by `'/'` decrement the depth, advance past the `'/'`, and
break when the depth reaches 0; on `'/'` followed by `'*'` increment the
depth and advance past the `'*'`. Returns the remaining characters and
the updated line/column pair. -/
def mlcAux : List Char → Int → Nat × Nat → List Char × (Nat × Nat)
  | [], _, lc => ([], lc)
  | [c], _, lc =>
    -- after advancing past the last character, `peek_first` is the EOF
    -- sentinel, so neither comment marker matches; the loop's next
    -- `advance` returns `None` and the loop exits
    ([], advLC c lc)
  | c :: r :: rest1, depth, lc =>
    let lc1 := advLC c lc
    if c = '*' ∧ r = '/' then
      let lc2 := advLC r lc1
      if depth - 1 = 0 then (rest1, lc2)
      else mlcAux rest1 (depth - 1) lc2
    else if c = '/' ∧ r = '*' then
      mlcAux rest1 (depth + 1) (advLC r lc1)
    else
      mlcAux (r :: rest1) depth lc1

/-- `Cursor::eat_multiline_comment` (depth starts at 0; the leading `/*`
is still in the input and increments the depth to 1). Produces no token:
the source returns `()` and only the cursor state changes. -/
def Cursor.eat_multiline_comment (st : Cursor) : Cursor :=
  let r := mlcAux st.chars 0 (st.line, st.column)
  { st with chars := r.1, line := r.2.1, column := r.2.2 }

/-- `fn is_xid_start` of `lib.rs`: underscore, or the Unicode XID-Start
table of the external `unicode_xid` crate. The crate is an external
collaborator (it is not part of this repository), so the table is a
parameter of the embedding. -/
def is_xid_start (xidStartTable : Char → Bool) (c : Char) : Bool :=
  c = '_' || xidStartTable c

/-- `fn is_xid_continue` of `lib.rs`: the Unicode XID-Continue table of
the external `unicode_xid` crate, passed as a parameter. -/
def is_xid_continue (xidContinueTable : Char → Bool) (c : Char) : Bool :=
  xidContinueTable c

/-- `Cursor::eat_ident`. The `panic!("bad identifier start")` branch is
embedded as `LexError.InvalidIdentifierStart`. -/
def Cursor.eat_ident (xidStartTable xidContinueTable : Char → Bool)
    (st : Cursor) : Except LexError (String × Cursor) :=
  if !(is_xid_start xidStartTable st.peek_first) then
    .error LexError.InvalidIdentifierStart
  else
    match st.advance with
    | (some c, st1) =>
      let r := st1.eat_while (is_xid_continue xidContinueTable)
      .ok (⟨c :: r.1.data⟩, r.2)
    | (none, _) =>
      -- stands for the `.unwrap()`; unreachable whenever the start table
      -- rejects the EOF sentinel (as the Unicode XID-Start table does),
      -- since then a passed start test implies a nonempty input
      .error LexError.InvalidIdentifierStart

/-- The escape table of `eat_double_quoted_string`'s inner match: the six
recognized escape arms in source order; `none` stands for the catch-all
arm `panic!("unexpected escape sequence")`. -/
def escDecode (e : Char) : Option Char :=
  if e = '\\' then some '\\'
  else if e = 'n' then some '\n'
  else if e = 'r' then some '\r'
  else if e = 't' then some '\t'
  else if e = '"' then some '"'
  else if e = '\'' then some '\''
  else none

/-- Loop body of `Cursor::eat_double_quoted_string` (entered after the
start quote has been eaten). The outer match arms in source order:
backslash (escape handling via `escDecode`), closing quote, the `EOF`
sentinel character (`panic!("unterminated string")`), and verbatim copy.
Returns the decoded characters or the error, the remaining characters at
the point the loop stopped, and the updated line/column pair. -/
def dqsAux : List Char → Nat × Nat →
    Except LexError (List Char) × List Char × (Nat × Nat)
  | [], lc =>
    -- `peek_first` is the EOF sentinel: the `EOF` arm panics
    (.error LexError.UnterminatedString, [], lc)
  | c :: rest, lc =>
    let lc1 := advLC c lc
    if c = '\\' then
      match rest with
      | [] =>
        -- after eating the backslash, `peek_first` is the EOF sentinel,
        -- which falls to the inner match's catch-all arm
        (.error LexError.InvalidEscapeSequence, [], lc1)
      | e :: rest1 =>
        match escDecode e with
        | some d =>
          let r := dqsAux rest1 (advLC e lc1)
          (r.1.map fun s => d :: s, r.2)
        | none =>
          (.error LexError.InvalidEscapeSequence, e :: rest1, lc1)
    else if c = '"' then
      (.ok [], rest, lc1)
    else if c = EOF then
      -- the source's `EOF` arm matches the literal NUL character; the
      -- cursor is not advanced past it
      (.error LexError.UnterminatedString, c :: rest, lc)
    else
      let r := dqsAux rest lc1
      (r.1.map fun s => c :: s, r.2)

/-- `Cursor::eat_double_quoted_string`: eat the start quote, then run the
decoding loop. The two `panic!` sites are embedded as
`LexError.UnterminatedString` and `LexError.InvalidEscapeSequence`. -/
def Cursor.eat_double_quoted_string (st : Cursor) :
    Except LexError String × Cursor :=
  let st1 := (st.advance).2
  let r := dqsAux st1.chars (st1.line, st1.column)
  (r.1.map fun l => ⟨l⟩,
   { st1 with chars := r.2.1, line := r.2.2.1, column := r.2.2.2 })

/-! ## Helper lemmas -/

/-- `eat_while`'s loop collects exactly the maximal satisfying run: the
collected characters are `takeWhile` and the remainder is `dropWhile`. -/
theorem eatWhileAux_take_drop (p : Char → Bool) (l : List Char) :
    ∀ lc, (eatWhileAux p l lc).1 = l.takeWhile p ∧
      (eatWhileAux p l lc).2.1 = l.dropWhile p := by
  induction l with
  | nil => intro lc; simp [eatWhileAux]
  | cons c rest ih =>
    intro lc
    by_cases h : p c
    · simp [eatWhileAux, h, List.takeWhile_cons, List.dropWhile_cons,
        (ih (advLC c lc)).1, (ih (advLC c lc)).2]
    · simp [eatWhileAux, h, List.takeWhile_cons, List.dropWhile_cons]

/-- The digit-eating loop never copies a separator into its output. -/
theorem eatDigitsAux_no_sep (isDigit : Char → Bool) (l : List Char) :
    ∀ lc, '_' ∉ (eatDigitsAux isDigit l lc).1 := by
  induction l with
  | nil => intro lc; simp [eatDigitsAux]
  | cons c rest ih =>
    intro lc
    by_cases h : c = '_'
    · subst h
      simpa [eatDigitsAux] using ih (advLC '_' lc)
    · by_cases h2 : isDigit c
      · simp [eatDigitsAux, h, h2, List.mem_cons, Ne.symm h, ih (advLC c lc)]
      · simp [eatDigitsAux, h, h2]

/-- On a run of digits/separators followed by a stopping character, the
digit-eating loop returns the run with the separators filtered out and
leaves exactly the stopping suffix unconsumed. -/
theorem eatDigitsAux_run (isDigit : Char → Bool) (l : List Char) :
    ∀ (rest : List Char) (lc : Nat × Nat),
      (∀ c ∈ l, c = '_' ∨ isDigit c = true) →
      (∀ c, rest.head? = some c → ¬(c = '_' ∨ isDigit c = true)) →
      (eatDigitsAux isDigit (l ++ rest) lc).1 = l.filter (fun c => c != '_') ∧
      (eatDigitsAux isDigit (l ++ rest) lc).2.1 = rest := by
  induction l with
  | nil =>
    intro rest lc _ hstop
    cases rest with
    | nil => simp [eatDigitsAux]
    | cons r rs =>
      have hr := hstop r rfl
      push_neg at hr
      simp [eatDigitsAux, hr.1, hr.2]
  | cons a l1 ih =>
    intro rest lc h hstop
    have ha := h a (List.mem_cons_self a l1)
    by_cases h1 : a = '_'
    · subst h1
      have ih2 := ih rest (advLC '_' lc)
        (fun c hc => h c (List.mem_cons_of_mem _ hc)) hstop
      simp [eatDigitsAux, List.filter_cons, ih2.1, ih2.2]
    · have h2 : isDigit a = true := ha.resolve_left h1
      have ih2 := ih rest (advLC a lc)
        (fun c hc => h c (List.mem_cons_of_mem _ hc)) hstop
      have hbne : (a != '_') = true := bne_iff_ne.mpr h1
      simp [eatDigitsAux, h1, h2, List.filter_cons, hbne, ih2.1, ih2.2]

/-- One-step unfolding of the string-decoding loop on a nonempty input,
usable when only the head character is known. -/
theorem dqsAux_cons (c : Char) (rest : List Char) (lc : Nat × Nat) :
    dqsAux (c :: rest) lc =
      if c = '\\' then
        match rest with
        | [] => (.error LexError.InvalidEscapeSequence, [], advLC c lc)
        | e :: rest1 =>
          match escDecode e with
          | some d =>
            let r := dqsAux rest1 (advLC e (advLC c lc))
            (r.1.map fun s => d :: s, r.2)
          | none => (.error LexError.InvalidEscapeSequence, e :: rest1, advLC c lc)
      else if c = '"' then (.ok [], rest, advLC c lc)
      else if c = EOF then (.error LexError.UnterminatedString, c :: rest, lc)
      else
        let r := dqsAux rest (advLC c lc)
        (r.1.map fun s => c :: s, r.2) := by
  cases rest <;> rfl

/-- The string-decoding loop copies a run of plain characters (no quote,
no backslash, no NUL) verbatim and then behaves on the tail as it would
from scratch, at some line/column position. -/
theorem dqsAux_skips_plain (pre : List Char) :
    ∀ (tail : List Char) (lc : Nat × Nat),
      (∀ c ∈ pre, c ≠ '"' ∧ c ≠ '\\' ∧ c ≠ EOF) →
      ∃ lc2, dqsAux (pre ++ tail) lc =
        ((dqsAux tail lc2).1.map fun s => pre ++ s, (dqsAux tail lc2).2) := by
  induction pre with
  | nil =>
    intro tail lc _
    refine ⟨lc, ?_⟩
    have hmap : ∀ x : Except LexError (List Char),
        x.map (fun s : List Char => s) = x := by
      intro x; cases x <;> rfl
    simp [hmap]
  | cons a pre1 ih =>
    intro tail lc h
    have ha := h a (List.mem_cons_self a pre1)
    obtain ⟨lc2, hEq⟩ := ih tail (advLC a lc)
      (fun c hc => h c (List.mem_cons_of_mem a hc))
    refine ⟨lc2, ?_⟩
    have hstep : dqsAux (a :: (pre1 ++ tail)) lc =
        ((dqsAux (pre1 ++ tail) (advLC a lc)).1.map fun s => a :: s,
         (dqsAux (pre1 ++ tail) (advLC a lc)).2) := by
      simp [dqsAux_cons, ha.1, ha.2.1, ha.2.2]
    rw [List.cons_append, hstep, hEq]
    cases (dqsAux tail lc2).1 <;> simp [Except.map]

/-! ## Claim theorems -/

/-- C1: whenever the first character is `0` and the second is none of
`x`/`X`/`b`/`B`, a decimal digit, or the separator `_`, `eat_number`
reaches the invalid-number-base failure branch — the source's
`panic!("Unexpected character after 0")` site — and produces no
(truncated) literal. -/
theorem eat_number_bad_base (st : Cursor) (h0 : st.peek_first = '0')
    (h1 : st.peek_second ≠ 'x') (h2 : st.peek_second ≠ 'X')
    (h3 : st.peek_second ≠ 'b') (h4 : st.peek_second ≠ 'B')
    (h5 : isDecDigit st.peek_second = false) (h6 : st.peek_second ≠ '_') :
    st.eat_number = .error LexError.InvalidNumberBase := by
  simp [Cursor.eat_number, h0, h1, h2, h3, h4, h5, h6]

/-- C1 witness: the concrete input `0p123`. -/
theorem eat_number_bad_base_witness :
    (Cursor.new "0p123").eat_number = .error LexError.InvalidNumberBase :=
  eat_number_bad_base (Cursor.new "0p123") (by decide) (by decide) (by decide)
    (by decide) (by decide) (by decide) (by decide)

/-- C2: on any input that ends inside a double-quoted string (an opening
quote followed only by plain characters, with no closing quote before the
end of input), `eat_double_quoted_string` reaches the unterminated-string
failure branch — the source's `panic!("unterminated string")` site — and
at that point the cursor is fully consumed. -/
theorem eat_string_unterminated (body : List Char)
    (h : ∀ c ∈ body, c ≠ '"' ∧ c ≠ '\\' ∧ c ≠ EOF) :
    ((Cursor.new ⟨'"' :: body⟩).eat_double_quoted_string).1 =
      .error LexError.UnterminatedString ∧
    ((Cursor.new ⟨'"' :: body⟩).eat_double_quoted_string).2.is_eof = true := by
  have h2 := dqsAux_skips_plain body [] ((0 : Nat), (1 : Nat)) h
  rw [List.append_nil] at h2
  obtain ⟨lc2, hEq⟩ := h2
  constructor <;>
    simp [Cursor.eat_double_quoted_string, Cursor.new, Cursor.advance, advLC,
      hEq, dqsAux, Except.map, Cursor.is_eof]

/-- C2 witness: the concrete input `"abc` (no closing quote). -/
theorem eat_string_unterminated_witness :
    ((Cursor.new "\"abc").eat_double_quoted_string).1 =
      .error LexError.UnterminatedString ∧
    ((Cursor.new "\"abc").eat_double_quoted_string).2.is_eof = true :=
  eat_string_unterminated ['a', 'b', 'c'] (by decide)

/-- C3: `consumed` is a difference of byte lengths (`initial_len` stores
`input.len()`, a byte count), so after advancing past the single
character `猫` (3 bytes in UTF-8) it reports 3, not the 1 character
actually advanced past. -/
theorem consumed_counts_bytes_not_chars :
    ((Cursor.new "猫").advance).2.consumed = 3 ∧
    (Cursor.new "猫").chars.length = 1 ∧
    ((Cursor.new "猫").advance).2.chars.length = 0 := by
  decide

/-- C4: the block-comment loop tracks nesting depth — `/*` increments it,
`*/` decrements it and terminates the scan when the depth reaches 0 — so
on `/* /* nested */ */x` it does not stop at the first `*/` and the next
character read afterwards is `x` (no token is produced: only the cursor
moves). -/
theorem eat_multiline_comment_nested :
    ((Cursor.new "/* /* nested */ */x").eat_multiline_comment).chars = ['x'] ∧
    ((Cursor.new "/* /* nested */ */x").eat_multiline_comment).peek_first = 'x' ∧
    (∀ rest depth lc, mlcAux ('/' :: '*' :: rest) depth lc =
      mlcAux rest (depth + 1) (advLC '*' (advLC '/' lc))) ∧
    (∀ rest depth lc, mlcAux ('*' :: '/' :: rest) depth lc =
      if depth - 1 = 0 then (rest, advLC '/' (advLC '*' lc))
      else mlcAux rest ((depth : Int) - 1) (advLC '/' (advLC '*' lc))) := by
  refine ⟨by decide, by decide, fun rest depth lc => ?_, fun rest depth lc => ?_⟩
  · simp [mlcAux]
  · simp [mlcAux]

/-- C5: string recognition decodes exactly the six escapes of the escape
table, rejects every other character after a backslash with the
invalid-escape failure, copies plain characters verbatim, and consumes
both quotes without including them; in particular `"a b c\""` decodes to
the text `a b c"`. -/
theorem eat_string_decodes_escapes :
    (∀ e d rest, escDecode e = some d →
      ((Cursor.new ⟨'"' :: '\\' :: e :: '"' :: rest⟩).eat_double_quoted_string).1 =
        .ok ⟨[d]⟩ ∧
      ((Cursor.new ⟨'"' :: '\\' :: e :: '"' :: rest⟩).eat_double_quoted_string).2.chars =
        rest) ∧
    (∀ e rest, escDecode e = none →
      ((Cursor.new ⟨'"' :: '\\' :: e :: rest⟩).eat_double_quoted_string).1 =
        .error LexError.InvalidEscapeSequence) ∧
    (∀ c rest, c ≠ '"' → c ≠ '\\' → c ≠ EOF →
      ((Cursor.new ⟨'"' :: c :: '"' :: rest⟩).eat_double_quoted_string).1 =
        .ok ⟨[c]⟩ ∧
      ((Cursor.new ⟨'"' :: c :: '"' :: rest⟩).eat_double_quoted_string).2.chars =
        rest) ∧
    (((Cursor.new "\"a b c\\\"\"").eat_double_quoted_string).1 = .ok "a b c\"" ∧
      ((Cursor.new "\"a b c\\\"\"").eat_double_quoted_string).2.is_eof = true) := by
  refine ⟨fun e d rest h => ?_, fun e rest h => ?_, fun c rest h1 h2 h3 => ?_,
    by constructor <;> rfl⟩
  · constructor <;>
      simp [Cursor.eat_double_quoted_string, Cursor.new, Cursor.advance, advLC,
        dqsAux_cons, h, Except.map]
  · simp [Cursor.eat_double_quoted_string, Cursor.new, Cursor.advance, advLC,
      dqsAux_cons, h, Except.map]
  · constructor <;>
      simp [Cursor.eat_double_quoted_string, Cursor.new, Cursor.advance, advLC,
        dqsAux_cons, h1, h2, h3, Except.map]

/-- C5 witness: the newline escape decoded, an invalid escape rejected,
and a verbatim character copied, on concrete inputs. -/
theorem eat_string_decodes_escapes_witness :
    (((Cursor.new "\"\\n\"").eat_double_quoted_string).1 = .ok "\n" ∧
      ((Cursor.new "\"\\n\"").eat_double_quoted_string).2.chars = []) ∧
    ((Cursor.new "\"\\q\"").eat_double_quoted_string).1 =
      .error LexError.InvalidEscapeSequence ∧
    (((Cursor.new "\"z\"").eat_double_quoted_string).1 = .ok "z" ∧
      ((Cursor.new "\"z\"").eat_double_quoted_string).2.chars = []) :=
  ⟨eat_string_decodes_escapes.1 'n' '\n' [] (by decide),
   eat_string_decodes_escapes.2.1 'q' ['"'] (by decide),
   eat_string_decodes_escapes.2.2.1 'z' [] (by decide) (by decide) (by decide)⟩

/-- C6: the digit literals never contain the separator, and on a digit
run with interior separators the returned literal is the run with every
separator removed, with the `Base` matching the prefix used (`0x`/`0X`
hexadecimal, `0b`/`0B` binary, decimal otherwise). -/
theorem eat_number_strips_separators :
    (∀ st : Cursor, '_' ∉ (st.eat_decimal_digits).1.data ∧
      '_' ∉ (st.eat_hexadecimal_digits).1.data ∧
      '_' ∉ (st.eat_binary_digits).1.data) ∧
    (∀ d l rest, isDecDigit d = true →
      (∀ c ∈ d :: l, c = '_' ∨ isDecDigit c = true) →
      (d = '0' → l ≠ []) →
      (∀ c, rest.head? = some c → ¬(c = '_' ∨ isDecDigit c = true)) →
      ((Cursor.new ⟨(d :: l) ++ rest⟩).eat_number).map
          (fun r => ((r.1.1.data, r.1.2), r.2.chars)) =
        .ok (((d :: l).filter (fun c => c != '_'), Base.Decimal), rest)) ∧
    (∀ x l rest, (x = 'x' ∨ x = 'X') →
      (∀ c ∈ l, c = '_' ∨ isHexDigit c = true) →
      (∀ c, rest.head? = some c → ¬(c = '_' ∨ isHexDigit c = true)) →
      ((Cursor.new ⟨'0' :: x :: (l ++ rest)⟩).eat_number).map
          (fun r => ((r.1.1.data, r.1.2), r.2.chars)) =
        .ok ((l.filter (fun c => c != '_'), Base.Hexadecimal), rest)) ∧
    (∀ b l rest, (b = 'b' ∨ b = 'B') →
      (∀ c ∈ l, c = '_' ∨ isBinDigit c = true) →
      (∀ c, rest.head? = some c → ¬(c = '_' ∨ isBinDigit c = true)) →
      ((Cursor.new ⟨'0' :: b :: (l ++ rest)⟩).eat_number).map
          (fun r => ((r.1.1.data, r.1.2), r.2.chars)) =
        .ok ((l.filter (fun c => c != '_'), Base.Binary), rest)) := by
  refine ⟨?_, ?_, ?_, ?_⟩
  · intro st
    exact ⟨eatDigitsAux_no_sep isDecDigit st.chars (st.line, st.column),
      eatDigitsAux_no_sep isHexDigit st.chars (st.line, st.column),
      eatDigitsAux_no_sep isBinDigit st.chars (st.line, st.column)⟩
  · intro d l rest hd h h0 hstop
    have hrun := eatDigitsAux_run isDecDigit (d :: l) rest (0 : Nat × Nat)
      h hstop
    by_cases hzero : d = '0'
    · subst hzero
      obtain ⟨m, l1, rfl⟩ : ∃ m l1, l = m :: l1 := by
        cases l with
        | nil => exact absurd rfl (h0 rfl)
        | cons m l1 => exact ⟨m, l1, rfl⟩
      have hm := h m (by simp)
      have hmx : m ≠ 'x' := by rintro rfl; revert hm; decide
      have hmX : m ≠ 'X' := by rintro rfl; revert hm; decide
      have hmb : m ≠ 'b' := by rintro rfl; revert hm; decide
      have hmB : m ≠ 'B' := by rintro rfl; revert hm; decide
      have hcond : isDecDigit m = true ∨ m = '_' := hm.symm
      simp [Cursor.eat_number, Cursor.peek_first, Cursor.peek_second, Cursor.new,
        hmx, hmX, hmb, hmB, hcond, Cursor.eat_decimal_digits, Except.map]
      exact ⟨hrun.1, hrun.2⟩
    · simp [Cursor.eat_number, Cursor.peek_first, Cursor.new, hzero,
        Cursor.eat_decimal_digits, Except.map]
      exact ⟨hrun.1, hrun.2⟩
  · intro x l rest hx h hstop
    have hrun := eatDigitsAux_run isHexDigit l rest ((0 : Nat), (2 : Nat))
      h hstop
    rcases hx with rfl | rfl <;>
      simp [Cursor.eat_number, Cursor.peek_first, Cursor.peek_second, Cursor.new,
        Cursor.advance, advLC, Cursor.eat_hexadecimal_digits,
        hrun.1, hrun.2, Except.map]
  · intro b l rest hb h hstop
    have hrun := eatDigitsAux_run isBinDigit l rest ((0 : Nat), (2 : Nat))
      h hstop
    rcases hb with rfl | rfl <;>
      simp [Cursor.eat_number, Cursor.peek_first, Cursor.peek_second, Cursor.new,
        Cursor.advance, advLC, Cursor.eat_binary_digits,
        hrun.1, hrun.2, Except.map]

/-- C6 witness: the three bases with interior separators, concretely. -/
theorem eat_number_strips_separators_witness :
    ((Cursor.new "123_456").eat_number).map
        (fun r => ((r.1.1.data, r.1.2), r.2.chars)) =
      .ok ((['1', '2', '3', '4', '5', '6'], Base.Decimal), []) ∧
    ((Cursor.new "0xAf_1 ").eat_number).map
        (fun r => ((r.1.1.data, r.1.2), r.2.chars)) =
      .ok ((['A', 'f', '1'], Base.Hexadecimal), [' ']) ∧
    ((Cursor.new "0b10_1").eat_number).map
        (fun r => ((r.1.1.data, r.1.2), r.2.chars)) =
      .ok ((['1', '0', '1'], Base.Binary), []) :=
  ⟨eat_number_strips_separators.2.1 '1' ['2', '3', '_', '4', '5', '6'] []
      (by decide) (by decide) (by decide) (by decide),
   eat_number_strips_separators.2.2.1 'x' ['A', 'f', '_', '1'] [' ']
      (Or.inl rfl) (by decide) (by decide),
   eat_number_strips_separators.2.2.2 'b' ['1', '0', '_', '1'] []
      (Or.inl rfl) (by decide) (by decide)⟩

/-- C7: `eat_ident` rejects any first character failing the
identifier-start test (underscore or the XID-Start table) with the
invalid-start failure, and otherwise consumes exactly the maximal run of
identifier-continue characters: the literal is the exact source span and
the cursor stops immediately after the last continue-character. Stated
for every choice of the external Unicode tables. -/
theorem eat_ident_exact_span (xs xc : Char → Bool) (st : Cursor) :
    (is_xid_start xs st.peek_first = false →
      st.eat_ident xs xc = .error LexError.InvalidIdentifierStart) ∧
    (∀ c rest, st.chars = c :: rest → is_xid_start xs c = true →
      (st.eat_ident xs xc).map (fun r => (r.1.data, r.2.chars)) =
        .ok (c :: rest.takeWhile (is_xid_continue xc),
          rest.dropWhile (is_xid_continue xc))) := by
  obtain ⟨chars, il, ln, col⟩ := st
  constructor
  · intro h
    simp [Cursor.eat_ident, h]
  · intro c rest hch hstart
    simp only [Cursor.chars] at hch
    subst hch
    have hW := eatWhileAux_take_drop (is_xid_continue xc) rest
      (advLC c (ln, col))
    simp [Cursor.eat_ident, Cursor.peek_first, hstart, Cursor.advance,
      Cursor.eat_while, hW.1, hW.2, Except.map]

/-- C7 witness: an ASCII instantiation of the external tables on the
input `ab1 x`, and a rejected start on `1ab`. -/
theorem eat_ident_exact_span_witness :
    ((Cursor.new "ab1 x").eat_ident (fun c => c.isAlpha)
        (fun c => c.isAlphanum)).map (fun r => (r.1.data, r.2.chars)) =
      .ok (['a', 'b', '1'], [' ', 'x']) ∧
    (Cursor.new "1ab").eat_ident (fun c => c.isAlpha) (fun c => c.isAlphanum) =
      .error LexError.InvalidIdentifierStart :=
  ⟨(eat_ident_exact_span (fun c => c.isAlpha) (fun c => c.isAlphanum)
      (Cursor.new "ab1 x")).2 'a' ['b', '1', ' ', 'x'] rfl (by decide),
   (eat_ident_exact_span (fun c => c.isAlpha) (fun c => c.isAlphanum)
      (Cursor.new "1ab")).1 (by decide)⟩

/-- C8: `advance` on a newline resets the column to 0 and increments the
line; on any other character it increments the column; and after four
advances over `123\n456` the reported location is line 1, column 0. -/
theorem advance_tracks_lines (st : Cursor) :
    (∀ c rest, st.chars = c :: rest →
      (c = '\n' →
        st.advance = (some c, ⟨rest, st.initialLen, st.line + 1, 0⟩)) ∧
      (c ≠ '\n' →
        st.advance = (some c, ⟨rest, st.initialLen, st.line, st.column + 1⟩))) ∧
    ((((((Cursor.new "123\n456").advance).2.advance).2.advance).2.advance).2.location
      = ⟨1, 0⟩) := by
  obtain ⟨chars, il, ln, col⟩ := st
  refine ⟨fun c rest hch => ?_, by decide⟩
  simp only [Cursor.chars] at hch
  subst hch
  constructor
  · intro hnl
    subst hnl
    simp [Cursor.advance, advLC]
  · intro hnl
    simp [Cursor.advance, advLC, hnl]

/-- C8 witness: one newline advance and one plain advance, concretely. -/
theorem advance_tracks_lines_witness :
    (Cursor.new "\n").advance = (some '\n', ⟨[], 1, 1, 0⟩) ∧
    (Cursor.new "a").advance = (some 'a', ⟨[], 1, 0, 1⟩) :=
  ⟨((advance_tracks_lines (Cursor.new "\n")).1 '\n' [] rfl).1 rfl,
   ((advance_tracks_lines (Cursor.new "a")).1 'a' [] rfl).2 (by decide)⟩

/-- C9: `eat_while` always terminates (it is a total function of the
embedding, each iteration consuming one character, also when the
predicate accepts the EOF sentinel), advances over exactly the maximal
prefix of remaining characters satisfying the predicate, and returns
those characters as text. -/
theorem eat_while_maximal_run (p : Char → Bool) (st : Cursor) :
    (st.eat_while p).1.data = st.chars.takeWhile p ∧
    (st.eat_while p).2.chars = st.chars.dropWhile p ∧
    st.chars = (st.eat_while p).1.data ++ (st.eat_while p).2.chars := by
  have h := eatWhileAux_take_drop p st.chars (st.line, st.column)
  have A : (st.eat_while p).1.data = st.chars.takeWhile p := h.1
  have B : (st.eat_while p).2.chars = st.chars.dropWhile p := h.2
  exact ⟨A, B, by rw [A, B, List.takeWhile_append_dropWhile]⟩

/-- C10: when the next unconsumed character inside a double-quoted string
is a literal NUL — indistinguishable from the EOF sentinel — the
recognizer takes the unterminated-string failure branch, leaving the NUL
and everything after it unconsumed rather than copying the NUL into the
literal, even though input remains. -/
theorem eat_string_nul_is_eof (pre suf : List Char)
    (h : ∀ c ∈ pre, c ≠ '"' ∧ c ≠ '\\' ∧ c ≠ EOF) :
    ((Cursor.new ⟨'"' :: (pre ++ EOF :: suf)⟩).eat_double_quoted_string).1 =
      .error LexError.UnterminatedString ∧
    ((Cursor.new ⟨'"' :: (pre ++ EOF :: suf)⟩).eat_double_quoted_string).2.chars =
      EOF :: suf ∧
    ((Cursor.new ⟨'"' :: (pre ++ EOF :: suf)⟩).eat_double_quoted_string).2.is_eof =
      false := by
  obtain ⟨lc2, hEq⟩ := dqsAux_skips_plain pre (EOF :: suf) ((0 : Nat), (1 : Nat)) h
  have hNul : dqsAux (EOF :: suf) lc2 =
      (.error LexError.UnterminatedString, EOF :: suf, lc2) := by
    simp [dqsAux_cons, EOF]
  refine ⟨?_, ?_, ?_⟩ <;>
    simp [Cursor.eat_double_quoted_string, Cursor.new, Cursor.advance, advLC,
      hEq, hNul, Except.map, Cursor.is_eof]

/-- C10 witness: the input `"a` followed by a literal NUL and `bc`. -/
theorem eat_string_nul_is_eof_witness :
    ((Cursor.new "\"a\x00bc").eat_double_quoted_string).1 =
      .error LexError.UnterminatedString ∧
    ((Cursor.new "\"a\x00bc").eat_double_quoted_string).2.chars =
      EOF :: ['b', 'c'] ∧
    ((Cursor.new "\"a\x00bc").eat_double_quoted_string).2.is_eof = false :=
  eat_string_nul_is_eof ['a'] ['b', 'c'] (by decide)

end TreeLexer
